import Mathlib

/-!
Shallow embedding of hikalium/vacation (src/main.rs): the GLB writer
(`write_glb`, `append_bytes`, `bounding_coords3d`) and the accessor decode
blocks of `run_input`, together with theorems settling the specification
claims C1-C10.

Modelling conventions.
f32 values that the program moves verbatim (vertex positions, normals,
indices, texture coordinates) are represented by their 32-bit
little-endian bit patterns, as natural numbers below 2^32: along these
paths the program never computes on the values, it only serializes and
deserializes their bytes, so the bit-pattern model is exact.
f32 values that the program compares (`bounding_coords3d`) are modeled as
rationals; Rust `f32::min` and `f32::max` agree with the rational order on
finite non-NaN inputs, and the sentinels `f32::MAX`, `f32::MIN` are the
exactly representable rationals `(2^24 - 1) * 2^104` and its negation.
Byte buffers are `List Nat` with every entry below 256.
-/

namespace Vacation

/-- Little-endian bytes of a 32-bit word: the in-memory byte image of one
f32 or u32 value, which `append_bytes` (main.rs lines 278-283)
reinterprets as raw bytes and `from_le_bytes` (lines 152-159, 193-200)
reads back. -/
def u32ToLEBytes (w : Nat) : List Nat :=
  [w % 256, w / 256 % 256, w / 65536 % 256, w / 16777216 % 256]

/-- `chunks_exact(4)` followed by `f32::from_le_bytes` / `u32::from_le_bytes`
(main.rs lines 152-159 and 193-200): consecutive groups of four bytes
become little-endian words; a trailing group shorter than four bytes is
dropped by `chunks_exact`. -/
def leWords : List Nat → List Nat
  | b0 :: b1 :: b2 :: b3 :: rest =>
      (b0 + 256 * b1 + 65536 * b2 + 16777216 * b3) :: leWords rest
  | _ => []

/-- `chunks_exact(3)` regrouping scalars into triples
(main.rs lines 160-161, 180-181, 201-202); a short trailing group is
dropped. -/
def group3 {α : Type} : List α → List (α × α × α)
  | a :: b :: c :: rest => (a, b, c) :: group3 rest
  | _ => []

/-- Flattening of a `&[[T; 3]]` slice into its scalars, as done by the raw
byte reinterpretation in `append_bytes` and by `indices.flatten()`
(main.rs line 307). -/
def flatten3 {α : Type} (l : List (α × α × α)) : List α :=
  l.flatMap fun v => [v.1, v.2.1, v.2.2]

/-- Flattening of a `&[[T; 2]]` slice (main.rs line 428, `uv.flatten()`). -/
def flatten2 {α : Type} (l : List (α × α)) : List α :=
  l.flatMap fun v => [v.1, v.2]

/-- Byte image of a word sequence, four little-endian bytes per word. -/
def wordsToBytes (ws : List Nat) : List Nat := ws.flatMap u32ToLEBytes

/-- Byte image of a `&[[f32; 3]]` slice. -/
def vec3Bytes (vs : List (Nat × Nat × Nat)) : List Nat := wordsToBytes (flatten3 vs)

/-- Byte image of a `&[[f32; 2]]` slice. -/
def vec2Bytes (vs : List (Nat × Nat)) : List Nat := wordsToBytes (flatten2 vs)

/-- `append_bytes` (main.rs lines 275-294): record the current end of the
buffer as the offset, append the source bytes verbatim, push zero bytes
until the length is a multiple of four again, and return the offset and
the unpadded source length.  The generic `&[T]` argument is modeled by its
byte image, which is what the unsafe reinterpretation at lines 278-283
produces.  The entry assertion `ofs % 4 == 0` (line 277) holds on every
buffer this function ever grows from the empty one, see
`builderRun_aligned` below. -/
def append_bytes (bin src : List Nat) : List Nat × Nat × Nat :=
  let ofs := bin.length
  let withData := bin ++ src
  let padded := withData ++ List.replicate ((4 - withData.length % 4) % 4) 0
  (padded, ofs, src.length)

/-- A sequence of `append_bytes` calls starting from the empty buffer:
the only way the program ever uses the builder (`write_glb` lines
304-308, 427-428 start from `Vec::new()`). -/
def builderRun (srcs : List (List Nat)) : List Nat :=
  srcs.foldl (fun bin src => (append_bytes bin src).1) []

/-! Document graph model, mirroring the `gltf_json` records that
`write_glb` constructs and the `gltf` wrapper accessors that `run_input`
reads.  Constant metadata the program neither branches on nor exposes
(`extras`, `name`, GPU `target` hints, the always-`None` `sparse` field,
the accessor `min`/`max` bounding metadata) is elided: no claim and no
decode path consumes it. -/

/-- glTF component types (`gltf_json::accessor::ComponentType`). -/
inductive ComponentType
  | F32 | U32 | U16 | U8 | I16 | I8
  deriving DecidableEq

/-- glTF accessor shapes (`gltf_json::accessor::Type` /
`gltf::accessor::Dimensions`). -/
inductive AccessorType
  | Scalar | Vec2 | Vec3 | Vec4
  deriving DecidableEq

/-- Attribute semantics (`gltf_json::mesh::Semantic`). -/
inductive Semantic
  | Positions | Normals | Tangents
  | TexCoords (n : Nat) | Colors (n : Nat) | Joints (n : Nat) | Weights (n : Nat)
  deriving DecidableEq, BEq

/-- `gltf_json::buffer::View` as built at main.rs lines 316-349, 430-450. -/
structure BufferView where
  buffer : Nat
  byteLength : Nat
  byteOffset : Option Nat
  byteStride : Option Nat
  deriving DecidableEq

/-- `gltf_json::Accessor` as built at main.rs lines 358-408, 453-468. -/
structure Accessor where
  bufferView : Option Nat
  byteOffset : Nat
  count : Nat
  componentType : ComponentType
  accType : AccessorType
  normalized : Bool
  deriving DecidableEq

/-- `gltf_json::Buffer`: the embedded buffer has no URI (main.rs 575-581). -/
structure Buffer where
  byteLength : Nat
  uri : Option String
  deriving DecidableEq

/-- Topology modes (`gltf_json::mesh::Mode`). -/
inductive Mode
  | Points | Lines | LineLoop | LineStrip | Triangles | TriangleStrip | TriangleFan
  deriving DecidableEq

/-- `gltf_json::mesh::Primitive` (main.rs lines 533-552); the `HashMap`
of attributes is modeled as an association list in insertion order. -/
structure Primitive where
  attributes : List (Semantic × Nat)
  indices : Option Nat
  material : Option Nat
  mode : Mode
  deriving DecidableEq

structure Mesh where
  primitives : List Primitive
  deriving DecidableEq

/-- `gltf_json::image::Image` (main.rs lines 475-482). -/
structure Image where
  bufferView : Option Nat
  mimeType : Option String
  deriving DecidableEq

/-- Sampler filter constants (`gltf::texture::MagFilter` and friends). -/
inductive Filter
  | Nearest | Linear
  deriving DecidableEq

inductive WrappingMode
  | ClampToEdge | MirroredRepeat | Repeat
  deriving DecidableEq

/-- `gltf_json::texture::Sampler` (main.rs lines 484-492). -/
structure Sampler where
  magFilter : Option Filter
  minFilter : Option Filter
  wrapS : WrappingMode
  wrapT : WrappingMode
  deriving DecidableEq

/-- `KHR_texture_transform` payload (main.rs lines 494-502); the fixed
f32 literal fields are modeled as the rationals the literals denote. -/
structure TextureTransform where
  offset : ℚ × ℚ
  rotation : ℚ
  scale : ℚ × ℚ
  texCoord : Option Nat
  deriving DecidableEq

/-- `gltf_json::texture::Texture` (main.rs lines 503-510); the transform
is attached through the `extras` JSON in the source and carried here as a
field. -/
structure Texture where
  sampler : Option Nat
  source : Nat
  transform : TextureTransform
  deriving DecidableEq

/-- `gltf_json::texture::Info` inside the material (main.rs 516-521). -/
structure TextureInfo where
  index : Nat
  texCoord : Nat
  deriving DecidableEq

/-- `gltf_json::material::PbrMetallicRoughness` (main.rs 512-523); f32
literal factors modeled as the rationals the literals denote. -/
structure PbrMetallicRoughness where
  baseColorFactor : ℚ × ℚ × ℚ × ℚ
  metallicFactor : ℚ
  roughnessFactor : ℚ
  baseColorTexture : Option TextureInfo
  deriving DecidableEq

structure Material where
  pbrMetallicRoughness : PbrMetallicRoughness
  deriving DecidableEq

/-- `gltf_json::Node` (main.rs 560-573); only the fields the program sets
to non-defaults are kept. -/
structure Node where
  mesh : Option Nat
  translation : Option (Nat × Nat × Nat)
  deriving DecidableEq

structure Scene where
  nodes : List Nat
  deriving DecidableEq

/-- `gltf_json::Root` (main.rs 582-600). -/
structure Root where
  accessors : List Accessor
  buffers : List Buffer
  bufferViews : List BufferView
  meshes : List Mesh
  nodes : List Node
  scenes : List Scene
  images : List Image
  textures : List Texture
  materials : List Material
  samplers : List Sampler
  extensionsUsed : List String
  deriving DecidableEq

/-- `write_glb` (main.rs lines 295-618) up to the final serialization:
builds the binary blob with `append_bytes` and the document graph, and
returns both.  Vertices, normals and index triples carry 32-bit bit
patterns; `material` optionally carries PNG bytes and a UV array.  The
JSON serialization and file output at lines 602-617 are external
collaborators; the header length computation they feed on is modeled
separately as `write_glb_header_length`.

The source builds a local `attributes` map at lines 414-418 inserting
`Positions`, and in the material branch at lines 469-472 inserts
`TexCoords(0)` into it; that map is never read again: the primitive at
lines 533-545 constructs a fresh map holding only `Positions` and
`Normals`.  The dead map is mirrored here as the unused binding
`attributes0`. -/
def write_glb (vertices indices normals : List (Nat × Nat × Nat))
    (material : Option (List Nat × List (Nat × Nat)))
    (translation : Option (Nat × Nat × Nat)) : Root × List Nat :=
  let r1 := append_bytes [] (vec3Bytes vertices)
  let bin1 := r1.1
  let bin_vertices_ofs := r1.2.1
  let bin_vertices_len := r1.2.2
  let r2 := append_bytes bin1 (vec3Bytes normals)
  let bin2 := r2.1
  let bin_normals_ofs := r2.2.1
  let bin_normals_len := r2.2.2
  let indicesFlat := flatten3 indices
  let r3 := append_bytes bin2 (wordsToBytes indicesFlat)
  let bin3 := r3.1
  let bin_indices_ofs := r3.2.1
  let bin_indices_len := r3.2.2
  let buffer_views : List BufferView :=
    [⟨0, bin_vertices_len, some bin_vertices_ofs, none⟩,
     ⟨0, bin_normals_len, some bin_normals_ofs, none⟩,
     ⟨0, bin_indices_len, some bin_indices_ofs, none⟩]
  let accessors : List Accessor :=
    [⟨some 0, 0, vertices.length, .F32, .Vec3, false⟩,
     ⟨some 1, 0, normals.length, .F32, .Vec3, false⟩,
     ⟨some 2, 0, indicesFlat.length, .U32, .Scalar, false⟩]
  let attributes0 : List (Semantic × Nat) := [(.Positions, 0)]
  let ext :
      List Nat × List BufferView × List Accessor × List Image × List Texture ×
        List Material × List Sampler × Option Nat :=
    match material with
    | some (png_data, uv) =>
        let r4 := append_bytes bin3 png_data
        let bin4 := r4.1
        let png_ofs := r4.2.1
        let png_len := r4.2.2
        let r5 := append_bytes bin4 (vec2Bytes uv)
        let bin5 := r5.1
        let uv_ofs := r5.2.1
        let uv_len := r5.2.2
        -- png_buffer_view_idx = 3, uv_buffer_view_idx = 4,
        -- uv_accessor_idx = 3, image/sampler/texture/material indices = 0:
        -- each is the length of its table at creation time.
        let uv_accessor_idx := accessors.length
        let _attributes1 := attributes0 ++ [(Semantic.TexCoords 0, uv_accessor_idx)]
        (bin5,
         buffer_views ++
           [⟨0, png_len, some png_ofs, none⟩, ⟨0, uv_len, some uv_ofs, none⟩],
         accessors ++ [⟨some (buffer_views.length + 1), 0, vertices.length, .F32, .Vec2, false⟩],
         [⟨some buffer_views.length, some "image/png"⟩],
         [⟨some 0, 0, ⟨(0, 0), 0, (0, 0), some uv_accessor_idx⟩⟩],
         [⟨⟨(1, 1, 1, 1), 0, 9 / 10, some ⟨0, 0⟩⟩⟩],
         [⟨some .Linear, some .Linear, .Repeat, .Repeat⟩],
         some 0)
    | none => (bin3, buffer_views, accessors, [], [], [], [], none)
  let bin := ext.1
  let primitive : Primitive :=
    { attributes := [(.Positions, 0), (.Normals, 1)]
      indices := some 2
      material := ext.2.2.2.2.2.2.2
      mode := .Triangles }
  let root : Root :=
    { accessors := ext.2.2.1
      buffers := [⟨bin.length, none⟩]
      bufferViews := ext.2.1
      meshes := [⟨[primitive]⟩]
      nodes := [⟨some 0, translation⟩]
      scenes := [⟨[0]⟩]
      images := ext.2.2.2.1
      textures := ext.2.2.2.2.1
      materials := ext.2.2.2.2.2.1
      samplers := ext.2.2.2.2.2.2.1
      extensionsUsed := ["KHR_texture_transform"] }
  (root, bin)

/-- `align_to_multiple_of_four` (main.rs lines 271-273): `(n + 3) & !3`
on a u32, i.e. clear the two low bits of the wrapped sum. -/
def align_to_multiple_of_four (n : Nat) : Nat :=
  let m := (n + 3) % 4294967296
  m - m % 4

/-- The `length` field of the `gltf::binary::Header` that `write_glb`
constructs (main.rs lines 602-609): the 4-aligned JSON byte length plus
the blob length, wrapped to u32.  The JSON text itself comes from the
external serializer, so only its byte length enters the model. -/
def write_glb_header_length (jsonLen binLen : Nat) : Nat :=
  (align_to_multiple_of_four jsonLen + binLen) % 4294967296

/-- Result of one decode block in `run_input`: `ok` for normal
completion, `err` for an `anyhow` error propagated with `?` (the
`.context(...)` calls), `panicked` for an `assert!`/`assert_eq!`/
`assert_matches!` failure or an out-of-range slice index, which aborts
the process instead of returning a `Result`. -/
inductive Outcome (α : Type)
  | ok : α → Outcome α
  | err : String → Outcome α
  | panicked : Outcome α
  deriving DecidableEq

/-- `(bin.drop ofs).take len`: the slice `&bin[ofs..ofs + len]` once the
bounds check has passed. -/
def sliceAt (bin : List Nat) (ofs len : Nat) : List Nat := (bin.drop ofs).take len

/-- The `vertices` decode block of `run_input` (main.rs lines 144-163);
the `normals` block at lines 164-183 is textually identical, including
the copy-pasted context string.  Steps, in source order: assert the
accessor shape is `Vec3` and its component type `F32`; require a buffer
view (`context("Positions have no view")?`); assert the view is
unstrided and its buffer is the embedded binary chunk; slice
`bin[v.offset()..v.offset() + v.length()]` (an out-of-range slice
panics); decode four-byte little-endian words and regroup them into
triples. -/
def decode_vec3_f32 (root : Root) (bin : List Nat) (ai : Nat) :
    Outcome (List (Nat × Nat × Nat)) :=
  match root.accessors[ai]? with
  | none => .panicked
  | some a =>
      if a.accType ≠ AccessorType.Vec3 then .panicked
      else if a.componentType ≠ ComponentType.F32 then .panicked
      else
        match a.bufferView with
        | none => .err "Positions have no view"
        | some vi =>
            match root.bufferViews[vi]? with
            | none => .panicked
            | some v =>
                if v.byteStride ≠ none then .panicked
                else
                  match root.buffers[v.buffer]? with
                  | none => .panicked
                  | some b =>
                      if b.uri ≠ none then .panicked
                      else if bin.length < v.byteOffset.getD 0 + v.byteLength then
                        .panicked
                      else
                        .ok (group3 (leWords (sliceAt bin (v.byteOffset.getD 0) v.byteLength)))

/-- The `indices` decode block of `run_input` (main.rs lines 185-204):
assert the accessor shape is `Scalar` and its component type `U32`
(`assert_eq!(ai.data_type(), DataType::U32)` at line 187 — a panic, not
an error return); require a view (`context("Indices have no view")?`);
assert unstrided view backed by the binary chunk; slice the whole view,
decode little-endian u32 words, and regroup them into triples. -/
def decode_indices_u32 (root : Root) (bin : List Nat) (ai : Nat) :
    Outcome (List (Nat × Nat × Nat)) :=
  match root.accessors[ai]? with
  | none => .panicked
  | some a =>
      if a.accType ≠ AccessorType.Scalar then .panicked
      else if a.componentType ≠ ComponentType.U32 then .panicked
      else
        match a.bufferView with
        | none => .err "Indices have no view"
        | some vi =>
            match root.bufferViews[vi]? with
            | none => .panicked
            | some v =>
                if v.byteStride ≠ none then .panicked
                else
                  match root.buffers[v.buffer]? with
                  | none => .panicked
                  | some b =>
                      if b.uri ≠ none then .panicked
                      else if bin.length < v.byteOffset.getD 0 + v.byteLength then
                        .panicked
                      else
                        .ok (group3 (leWords (sliceAt bin (v.byteOffset.getD 0) v.byteLength)))

/-- `f32::MAX` as an exact rational: `(2 - 2^-23) * 2^127`. -/
def f32MAX : ℚ := (2 ^ 24 - 1) * 2 ^ 104

/-- `bounding_coords3d` (main.rs lines 246-257): a single fold over the
points, taking the component-wise `f32::min` with an accumulator that
starts at `f32::MAX` and the component-wise `f32::max` with one that
starts at `f32::MIN = -f32::MAX`.  Values are modeled as rationals, on
which `f32::min`/`f32::max` agree for finite non-NaN inputs. -/
def bounding_coords3d (points : List (ℚ × ℚ × ℚ)) : (ℚ × ℚ × ℚ) × (ℚ × ℚ × ℚ) :=
  points.foldl
    (fun acc p =>
      ((min acc.1.1 p.1, min acc.1.2.1 p.2.1, min acc.1.2.2 p.2.2),
       (max acc.2.1 p.1, max acc.2.2.1 p.2.1, max acc.2.2.2 p.2.2)))
    ((f32MAX, f32MAX, f32MAX), (-f32MAX, -f32MAX, -f32MAX))

/-- `bounding_coords2d` (main.rs lines 258-269), the UV analogue; its
result only feeds the elided accessor `min`/`max` metadata. -/
def bounding_coords2d (points : List (ℚ × ℚ)) : (ℚ × ℚ) × (ℚ × ℚ) :=
  points.foldl
    (fun acc p =>
      ((min acc.1.1 p.1, min acc.1.2 p.2),
       (max acc.2.1 p.1, max acc.2.2 p.2)))
    ((f32MAX, f32MAX), (-f32MAX, -f32MAX))

/-! Concrete data of the triangle scenario (spec section 8): three
vertices whose coordinates are the f32 bit patterns of 0, 0.5 and -0.5,
and one index triple. -/

/-- Bit pattern of `0.5f32` (0x3F000000). -/
def half32 : Nat := 1056964608

/-- Bit pattern of `-0.5f32` (0xBF000000). -/
def negHalf32 : Nat := 3204448256

def triVertices : List (Nat × Nat × Nat) :=
  [(0, half32, 0), (negHalf32, negHalf32, 0), (half32, negHalf32, 0)]

def triIndices : List (Nat × Nat × Nat) := [(0, 1, 2)]

/-- A minimal well-formed document for exercising the decode blocks in
isolation: a single Vec3/F32 accessor with byte offset 4 and count 1,
backed by an unstrided 24-byte view starting at byte 0 of the embedded
buffer. -/
def c4Doc : Root :=
  { accessors := [⟨some 0, 4, 1, .F32, .Vec3, false⟩]
    buffers := [⟨24, none⟩]
    bufferViews := [⟨0, 24, some 0, none⟩]
    meshes := []
    nodes := []
    scenes := []
    images := []
    textures := []
    materials := []
    samplers := []
    extensionsUsed := [] }

/-- 24 bytes encoding the little-endian u32 words 1..6. -/
def c4Bin : List Nat := wordsToBytes [1, 2, 3, 4, 5, 6]

/-- A document whose indices accessor declares UNSIGNED_SHORT with Scalar
shape, backed by a valid unstrided view over the embedded buffer: the
input class of claim C8. -/
def c8Doc : Root :=
  { accessors := [⟨some 0, 0, 3, .U16, .Scalar, false⟩]
    buffers := [⟨8, none⟩]
    bufferViews := [⟨0, 6, some 0, none⟩]
    meshes := []
    nodes := []
    scenes := []
    images := []
    textures := []
    materials := []
    samplers := []
    extensionsUsed := [] }

def c8Bin : List Nat := List.replicate 8 0

/-! Theorems. -/

theorem append_bytes_ofs (bin src : List Nat) :
    (append_bytes bin src).2.1 = bin.length := rfl

theorem append_bytes_retLen (bin src : List Nat) :
    (append_bytes bin src).2.2 = src.length := rfl

theorem append_bytes_length (bin src : List Nat) :
    (append_bytes bin src).1.length =
      bin.length + src.length + (4 - (bin.length + src.length) % 4) % 4 := by
  simp [append_bytes]
  omega

theorem append_bytes_aligned (bin src : List Nat) :
    (append_bytes bin src).1.length % 4 = 0 := by
  rw [append_bytes_length]
  omega

theorem append_bytes_of_aligned {bin src : List Nat}
    (h : (bin.length + src.length) % 4 = 0) :
    append_bytes bin src = (bin ++ src, bin.length, src.length) := by
  have hc : (4 - (bin.length + src.length) % 4) % 4 = 0 := by omega
  simp [append_bytes, hc]

theorem builderRun_foldl_aligned (srcs : List (List Nat)) :
    ∀ bin : List Nat, bin.length % 4 = 0 →
      (srcs.foldl (fun bin src => (append_bytes bin src).1) bin).length % 4 = 0 := by
  induction srcs with
  | nil => intro bin h; simpa using h
  | cons s rest ih =>
      intro bin _
      simpa using ih (append_bytes bin s).1 (append_bytes_aligned bin s)

theorem builderRun_aligned (srcs : List (List Nat)) :
    (builderRun srcs).length % 4 = 0 :=
  builderRun_foldl_aligned srcs [] (by simp)

/-! Generic lemmas about the byte-level codec. -/

theorem wordsToBytes_length (ws : List Nat) : (wordsToBytes ws).length = 4 * ws.length := by
  induction ws with
  | nil => rfl
  | cons w ws ih => simp [wordsToBytes, u32ToLEBytes] at ih ⊢; omega

theorem flatten3_length {α : Type} (l : List (α × α × α)) :
    (flatten3 l).length = 3 * l.length := by
  induction l with
  | nil => rfl
  | cons p l ih => simp [flatten3] at ih ⊢; omega

theorem flatten2_length {α : Type} (l : List (α × α)) :
    (flatten2 l).length = 2 * l.length := by
  induction l with
  | nil => rfl
  | cons p l ih => simp [flatten2] at ih ⊢; omega

theorem vec3Bytes_length (vs : List (Nat × Nat × Nat)) :
    (vec3Bytes vs).length = 12 * vs.length := by
  simp [vec3Bytes, wordsToBytes_length, flatten3_length]; omega

theorem vec2Bytes_length (vs : List (Nat × Nat)) :
    (vec2Bytes vs).length = 8 * vs.length := by
  simp [vec2Bytes, wordsToBytes_length, flatten2_length]; omega

/-- Decoding the little-endian byte image of a word sequence restores the
sequence, provided every word fits in 32 bits. -/
theorem leWords_encode (ws : List Nat) (h : ∀ w ∈ ws, w < 4294967296) :
    leWords (wordsToBytes ws) = ws := by
  induction ws with
  | nil => rfl
  | cons w ws ih =>
      have hw : w < 4294967296 := h w (by simp)
      have hrec := ih fun x hx => h x (by simp [hx])
      simp only [wordsToBytes, List.flatMap_cons, u32ToLEBytes, List.cons_append,
        List.nil_append, leWords, hrec]
      congr 1
      omega

theorem group3_flatten3 {α : Type} (l : List (α × α × α)) :
    group3 (flatten3 l) = l := by
  induction l with
  | nil => rfl
  | cons p l ih => simp [flatten3, group3] at ih ⊢; exact ih

theorem leWords_length : ∀ l : List Nat, (leWords l).length = l.length / 4
  | [] => by simp [leWords]
  | [_] => by simp [leWords]
  | [_, _] => by simp [leWords]
  | [_, _, _] => by simp [leWords]
  | b0 :: b1 :: b2 :: b3 :: rest => by
      simp [leWords, leWords_length rest]
      omega

theorem group3_length {α : Type} : ∀ l : List α, (group3 l).length = l.length / 3
  | [] => by simp [group3]
  | [_] => by simp [group3]
  | [_, _] => by simp [group3]
  | a :: b :: c :: rest => by
      simp [group3, group3_length rest]
      omega

/-- Slicing out the middle run of a concatenation. -/
theorem sliceAt_append (pre mid post : List Nat) (ofs len : Nat)
    (ho : ofs = pre.length) (hl : len = mid.length) :
    sliceAt (pre ++ (mid ++ post)) ofs len = mid := by
  subst ho hl
  simp [sliceAt]

theorem mem_flatten3_bound {vs : List (Nat × Nat × Nat)}
    (h : ∀ p ∈ vs, p.1 < 4294967296 ∧ p.2.1 < 4294967296 ∧ p.2.2 < 4294967296) :
    ∀ w ∈ flatten3 vs, w < 4294967296 := by
  intro w hw
  simp only [flatten3, List.mem_flatMap] at hw
  obtain ⟨p, hp, hw⟩ := hw
  have := h p hp
  simp only [List.mem_cons, List.not_mem_nil, or_false] at hw
  rcases hw with rfl | rfl | rfl
  · exact this.1
  · exact this.2.1
  · exact this.2.2

/-- Every append leaves the previous buffer contents as a prefix. -/
theorem append_bytes_extends (bin src : List Nat) :
    ∃ t : List Nat, (append_bytes bin src).1 = bin ++ t :=
  ⟨src ++ List.replicate ((4 - (bin.length + src.length) % 4) % 4) 0, by
    simp [append_bytes]⟩

/-- Layout facts about the writer output shared by several claims: the
blob starts with the position bytes, then the normal bytes, then the
index bytes; the first three accessors and buffer views describe exactly
those spans; the single buffer carries no URI. -/
theorem write_glb_layout (vertices indices normals : List (Nat × Nat × Nat))
    (material : Option (List Nat × List (Nat × Nat)))
    (translation : Option (Nat × Nat × Nat)) :
    ∃ rest accTail viewTail,
      (write_glb vertices indices normals material translation).2 =
          vec3Bytes vertices ++ (vec3Bytes normals ++ (wordsToBytes (flatten3 indices) ++ rest)) ∧
      (write_glb vertices indices normals material translation).1.accessors =
          [⟨some 0, 0, vertices.length, .F32, .Vec3, false⟩,
           ⟨some 1, 0, normals.length, .F32, .Vec3, false⟩,
           ⟨some 2, 0, (flatten3 indices).length, .U32, .Scalar, false⟩] ++ accTail ∧
      (write_glb vertices indices normals material translation).1.bufferViews =
          [⟨0, (vec3Bytes vertices).length, some 0, none⟩,
           ⟨0, (vec3Bytes normals).length, some (vec3Bytes vertices).length, none⟩,
           ⟨0, (wordsToBytes (flatten3 indices)).length,
             some ((vec3Bytes vertices).length + (vec3Bytes normals).length), none⟩] ++ viewTail ∧
      (write_glb vertices indices normals material translation).1.buffers =
          [⟨(write_glb vertices indices normals material translation).2.length, none⟩] := by
  have hAlen : (vec3Bytes vertices).length % 4 = 0 := by rw [vec3Bytes_length]; omega
  have hBlen : (vec3Bytes normals).length % 4 = 0 := by rw [vec3Bytes_length]; omega
  have hClen : (wordsToBytes (flatten3 indices)).length % 4 = 0 := by
    rw [wordsToBytes_length]; omega
  have h1 : append_bytes [] (vec3Bytes vertices) =
      (vec3Bytes vertices, 0, (vec3Bytes vertices).length) := by
    have h := @append_bytes_of_aligned [] (vec3Bytes vertices)
      (by simpa using hAlen)
    simpa using h
  have h2 : append_bytes (vec3Bytes vertices) (vec3Bytes normals) =
      (vec3Bytes vertices ++ vec3Bytes normals, (vec3Bytes vertices).length,
        (vec3Bytes normals).length) :=
    append_bytes_of_aligned (by omega)
  have h3 : append_bytes (vec3Bytes vertices ++ vec3Bytes normals)
        (wordsToBytes (flatten3 indices)) =
      ((vec3Bytes vertices ++ vec3Bytes normals) ++ wordsToBytes (flatten3 indices),
        (vec3Bytes vertices ++ vec3Bytes normals).length,
        (wordsToBytes (flatten3 indices)).length) :=
    append_bytes_of_aligned (by simp only [List.length_append]; omega)
  cases material with
  | none =>
      refine ⟨[], [], [], ?_, ?_, ?_, ?_⟩
      all_goals simp [write_glb, h1, h2, h3, List.length_append]
  | some m =>
      obtain ⟨png, uv⟩ := m
      obtain ⟨t1, ht1⟩ := append_bytes_extends
        (vec3Bytes vertices ++ (vec3Bytes normals ++ wordsToBytes (flatten3 indices))) png
      obtain ⟨t2, ht2⟩ := append_bytes_extends
        (vec3Bytes vertices ++ (vec3Bytes normals ++ (wordsToBytes (flatten3 indices) ++ t1)))
        (vec2Bytes uv)
      refine ⟨t1 ++ t2,
        [⟨some 4, 0, vertices.length, .F32, .Vec2, false⟩],
        [⟨0, png.length, some ((vec3Bytes vertices).length + (vec3Bytes normals).length +
            (wordsToBytes (flatten3 indices)).length), none⟩,
         ⟨0, (vec2Bytes uv).length, some ((vec3Bytes vertices).length +
            (vec3Bytes normals).length + (wordsToBytes (flatten3 indices)).length +
            t1.length), none⟩],
        ?_, ?_, ?_, ?_⟩ <;>
        simp [write_glb, h1, h2, h3, ht1, ht2, append_bytes_ofs, append_bytes_retLen,
          List.length_append, List.append_assoc] <;>
        omega

/-- The single mesh the writer emits holds a single primitive whose
attribute map (built afresh at main.rs lines 533-545) maps `Positions`
to accessor 0 and `Normals` to accessor 1, with index accessor 2 and
`Triangles` mode; only the material index depends on the input. -/
theorem write_glb_meshes (vertices indices normals : List (Nat × Nat × Nat))
    (material : Option (List Nat × List (Nat × Nat)))
    (translation : Option (Nat × Nat × Nat)) :
    ∃ matIdx : Option Nat,
      (write_glb vertices indices normals material translation).1.meshes =
        [⟨[⟨[(Semantic.Positions, 0), (Semantic.Normals, 1)], some 2, matIdx,
            Mode.Triangles⟩]⟩] ∧
      matIdx = (match material with | some _ => some 0 | none => none) := by
  cases material with
  | none => exact ⟨none, by simp [write_glb], rfl⟩
  | some m => obtain ⟨png, uv⟩ := m; exact ⟨some 0, by simp [write_glb], rfl⟩

/-- Success path of the Vec3/F32 decode block: when the accessor, view
and buffer resolve, all assertions hold and the slice is in range, the
block returns the triples decoded from the whole view span. -/
theorem decode_vec3_f32_ok {root : Root} {bin : List Nat} {ai : Nat} {a : Accessor}
    {vi : Nat} {v : BufferView} {b : Buffer}
    (ha : root.accessors[ai]? = some a) (hat : a.accType = AccessorType.Vec3)
    (hct : a.componentType = ComponentType.F32) (hbv : a.bufferView = some vi)
    (hv : root.bufferViews[vi]? = some v) (hs : v.byteStride = none)
    (hb : root.buffers[v.buffer]? = some b) (hu : b.uri = none)
    (hbound : v.byteOffset.getD 0 + v.byteLength ≤ bin.length) :
    decode_vec3_f32 root bin ai =
      Outcome.ok (group3 (leWords (sliceAt bin (v.byteOffset.getD 0) v.byteLength))) := by
  have hnl : ¬ bin.length < v.byteOffset.getD 0 + v.byteLength := Nat.not_lt.mpr hbound
  simp [decode_vec3_f32, ha, hat, hct, hbv, hv, hs, hb, hu, hnl]

/-- Success path of the indices decode block, analogous. -/
theorem decode_indices_u32_ok {root : Root} {bin : List Nat} {ai : Nat} {a : Accessor}
    {vi : Nat} {v : BufferView} {b : Buffer}
    (ha : root.accessors[ai]? = some a) (hat : a.accType = AccessorType.Scalar)
    (hct : a.componentType = ComponentType.U32) (hbv : a.bufferView = some vi)
    (hv : root.bufferViews[vi]? = some v) (hs : v.byteStride = none)
    (hb : root.buffers[v.buffer]? = some b) (hu : b.uri = none)
    (hbound : v.byteOffset.getD 0 + v.byteLength ≤ bin.length) :
    decode_indices_u32 root bin ai =
      Outcome.ok (group3 (leWords (sliceAt bin (v.byteOffset.getD 0) v.byteLength))) := by
  have hnl : ¬ bin.length < v.byteOffset.getD 0 + v.byteLength := Nat.not_lt.mpr hbound
  simp [decode_indices_u32, ha, hat, hct, hbv, hv, hs, hb, hu, hnl]

/-- C1: round trip.  For every non-empty vertex array and every index
triple array (components being 32-bit patterns, as enforced by the Rust
types f32 and u32), encoding with the writer and then decoding the
position accessor of the resulting document (accessor 0, the one the
POSITION attribute of the primitive names) and its index accessor
(accessor 2, the indices of the primitive) against the resulting blob
returns both arrays
bit-identically, in order — for any normals, material and translation
inputs. -/
theorem C1_round_trip (vertices indices normals : List (Nat × Nat × Nat))
    (material : Option (List Nat × List (Nat × Nat)))
    (translation : Option (Nat × Nat × Nat))
    (hne : vertices ≠ [])
    (hv32 : ∀ p ∈ vertices, p.1 < 4294967296 ∧ p.2.1 < 4294967296 ∧ p.2.2 < 4294967296)
    (hi32 : ∀ t ∈ indices, t.1 < 4294967296 ∧ t.2.1 < 4294967296 ∧ t.2.2 < 4294967296) :
    ∃ prim : Primitive,
      (write_glb vertices indices normals material translation).1.meshes = [⟨[prim]⟩] ∧
      prim.attributes.lookup Semantic.Positions = some 0 ∧
      prim.indices = some 2 ∧
      decode_vec3_f32 (write_glb vertices indices normals material translation).1
          (write_glb vertices indices normals material translation).2 0 =
        Outcome.ok vertices ∧
      decode_indices_u32 (write_glb vertices indices normals material translation).1
          (write_glb vertices indices normals material translation).2 2 =
        Outcome.ok indices := by
  obtain ⟨rest, accTail, viewTail, hbin, hacc, hviews, hbuf⟩ :=
    write_glb_layout vertices indices normals material translation
  obtain ⟨matIdx, hmesh, -⟩ :=
    write_glb_meshes vertices indices normals material translation
  have ha0 : (write_glb vertices indices normals material translation).1.accessors[0]? =
      some ⟨some 0, 0, vertices.length, .F32, .Vec3, false⟩ := by simp [hacc]
  have ha2 : (write_glb vertices indices normals material translation).1.accessors[2]? =
      some ⟨some 2, 0, (flatten3 indices).length, .U32, .Scalar, false⟩ := by simp [hacc]
  have hv0 : (write_glb vertices indices normals material translation).1.bufferViews[0]? =
      some ⟨0, (vec3Bytes vertices).length, some 0, none⟩ := by simp [hviews]
  have hv2 : (write_glb vertices indices normals material translation).1.bufferViews[2]? =
      some ⟨0, (wordsToBytes (flatten3 indices)).length,
        some ((vec3Bytes vertices).length + (vec3Bytes normals).length), none⟩ := by
    simp [hviews]
  have hb0 : (write_glb vertices indices normals material translation).1.buffers[0]? =
      some ⟨(write_glb vertices indices normals material translation).2.length, none⟩ := by
    simp [hbuf]
  have hbinlen : (write_glb vertices indices normals material translation).2.length =
      (vec3Bytes vertices).length + ((vec3Bytes normals).length +
        ((wordsToBytes (flatten3 indices)).length + rest.length)) := by
    rw [hbin]; simp [List.length_append]
  refine ⟨⟨[(Semantic.Positions, 0), (Semantic.Normals, 1)], some 2, matIdx,
    Mode.Triangles⟩, hmesh, by rfl, rfl, ?_, ?_⟩
  · have hbound1 : ((some 0 : Option Nat).getD 0) + (vec3Bytes vertices).length ≤
        (write_glb vertices indices normals material translation).2.length := by
      simp only [Option.getD_some, hbinlen]; omega
    have hdec := decode_vec3_f32_ok ha0 rfl rfl rfl hv0 rfl hb0 rfl hbound1
    rw [hdec]
    have hslice : sliceAt (write_glb vertices indices normals material translation).2
        ((some 0 : Option Nat).getD 0) (vec3Bytes vertices).length = vec3Bytes vertices := by
      rw [hbin]
      simp [sliceAt, List.take_left]
    simp only [hslice]
    have henc := leWords_encode (flatten3 vertices) (mem_flatten3_bound hv32)
    simp [vec3Bytes, henc, group3_flatten3]
  · have hbound2 : ((some ((vec3Bytes vertices).length + (vec3Bytes normals).length) :
        Option Nat).getD 0) + (wordsToBytes (flatten3 indices)).length ≤
        (write_glb vertices indices normals material translation).2.length := by
      simp only [Option.getD_some, hbinlen]; omega
    have hdec := decode_indices_u32_ok ha2 rfl rfl rfl hv2 rfl hb0 rfl hbound2
    rw [hdec]
    have hbin2 : (write_glb vertices indices normals material translation).2 =
        (vec3Bytes vertices ++ vec3Bytes normals) ++
          (wordsToBytes (flatten3 indices) ++ rest) := by
      rw [hbin]; simp [List.append_assoc]
    have hslice : sliceAt (write_glb vertices indices normals material translation).2
        ((some ((vec3Bytes vertices).length + (vec3Bytes normals).length) :
          Option Nat).getD 0) (wordsToBytes (flatten3 indices)).length =
        wordsToBytes (flatten3 indices) := by
      rw [hbin2]
      exact sliceAt_append _ _ _ _ _ (by simp [List.length_append]) rfl
    simp only [hslice]
    have henc := leWords_encode (flatten3 indices) (mem_flatten3_bound hi32)
    simp [henc, group3_flatten3]

/-- C1 witness: the round trip applied to the concrete triangle input,
with every hypothesis discharged by evaluation. -/
theorem C1_round_trip_witness :
    triVertices ≠ [] ∧
    ∃ prim : Primitive,
      (write_glb triVertices triIndices [] none none).1.meshes = [⟨[prim]⟩] ∧
      prim.attributes.lookup Semantic.Positions = some 0 ∧
      prim.indices = some 2 ∧
      decode_vec3_f32 (write_glb triVertices triIndices [] none none).1
          (write_glb triVertices triIndices [] none none).2 0 =
        Outcome.ok triVertices ∧
      decode_indices_u32 (write_glb triVertices triIndices [] none none).1
          (write_glb triVertices triIndices [] none none).2 2 =
        Outcome.ok triIndices :=
  ⟨by decide,
    C1_round_trip triVertices triIndices [] none none (by decide) (by decide) (by decide)⟩

/-- C3: encoding the scenario input — vertices (0, 0.5, 0), (-0.5, -0.5, 0),
(0.5, -0.5, 0) given as f32 bit patterns, index triple (0, 1, 2), no
normals, no material — produces a binary chunk of exactly 48 bytes,
namely 36 bytes of positions plus 12 bytes of indices, and decoding the
resulting document reproduces both arrays exactly. -/
theorem C3_triangle_scenario :
    ((write_glb triVertices triIndices [] none none).2.length = 48 ∧
      (vec3Bytes triVertices).length = 36 ∧
      (wordsToBytes (flatten3 triIndices)).length = 12) ∧
    decode_vec3_f32 (write_glb triVertices triIndices [] none none).1
        (write_glb triVertices triIndices [] none none).2 0 =
      Outcome.ok triVertices ∧
    decode_indices_u32 (write_glb triVertices triIndices [] none none).1
        (write_glb triVertices triIndices [] none none).2 2 =
      Outcome.ok triIndices := by
  decide

/-- C2 counterexample: an append call with an empty input on the empty
buffer returns offset 0, while the buffer length is 0 both at call time
and after the call (nothing is appended, no padding is added), so the
returned offset does not lie in the half-open interval
[0, buffer_length): the claim fails at this call. -/
theorem C2_counterexample :
    (append_bytes (builderRun []) []).2.1 = 0 ∧
    (append_bytes (builderRun []) []).1.length = 0 ∧
    ¬ ((append_bytes (builderRun []) []).2.1 <
        (append_bytes (builderRun []) []).1.length) := by
  decide

/-- C2 amended: starting from the empty buffer, after every sequence of
append calls the buffer length is a multiple of 4; each call returns the
pre-call buffer end as the offset and the unpadded input byte length as
the length; and the returned offset lies within [0, buffer length after
the call) whenever the appended input is non-empty — for an empty input
the offset equals the unchanged buffer length instead. -/
theorem C2_builder_invariant (calls : List (List Nat)) (src : List Nat) :
    (builderRun calls).length % 4 = 0 ∧
    (append_bytes (builderRun calls) src).2.1 = (builderRun calls).length ∧
    (append_bytes (builderRun calls) src).2.2 = src.length ∧
    (src ≠ [] →
      (append_bytes (builderRun calls) src).2.1 <
        (append_bytes (builderRun calls) src).1.length) := by
  refine ⟨builderRun_aligned calls, rfl, rfl, fun hne => ?_⟩
  rw [append_bytes_ofs, append_bytes_length]
  have hpos : 0 < src.length := List.length_pos.mpr hne
  omega

/-- C2 witness: the amended invariant evaluated after one prior append of
three bytes, appending two more. -/
theorem C2_builder_invariant_witness :
    (builderRun [[7, 8, 9]]).length % 4 = 0 ∧
    (append_bytes (builderRun [[7, 8, 9]]) [5, 6]).2.1 = (builderRun [[7, 8, 9]]).length ∧
    (append_bytes (builderRun [[7, 8, 9]]) [5, 6]).2.2 = 2 ∧
    (append_bytes (builderRun [[7, 8, 9]]) [5, 6]).2.1 <
      (append_bytes (builderRun [[7, 8, 9]]) [5, 6]).1.length :=
  ⟨(C2_builder_invariant [[7, 8, 9]] [5, 6]).1,
    (C2_builder_invariant [[7, 8, 9]] [5, 6]).2.1,
    (C2_builder_invariant [[7, 8, 9]] [5, 6]).2.2.1,
    (C2_builder_invariant [[7, 8, 9]] [5, 6]).2.2.2 (by decide)⟩

/-- C4 counterexample: on `c4Doc` the claim predicts a slice starting at
view.byte_offset + accessor.byte_offset = 0 + 4 and exactly
accessor.count = 1 element, i.e. the single triple (2, 3, 4).  The code
instead decodes the whole view from its own offset 0 and returns the two
triples (1, 2, 3), (4, 5, 6) — ignoring both accessor fields. -/
theorem C4_counterexample :
    decode_vec3_f32 c4Doc c4Bin 0 = Outcome.ok [(1, 2, 3), (4, 5, 6)] ∧
    c4Doc.accessors[0]? =
      some ⟨some 0, 4, 1, ComponentType.F32, AccessorType.Vec3, false⟩ ∧
    decode_vec3_f32 c4Doc c4Bin 0 ≠ Outcome.ok [(2, 3, 4)] := by
  decide

/-- C4 amended: a successful Vec3/F32 decode slices the blob at the
own byte offset of the buffer view for the whole byte length of the
view — accessor.byte_offset is not added — and returns
view.byte_length / 4 / 3 elements in blob order; the accessor fields `count`
and `byteOffset` fields do not influence the result at all: replacing
them by arbitrary values yields the same output. -/
theorem C4_decode_uses_view_only (root : Root) (bin : List Nat) (ai : Nat)
    (l : List (Nat × Nat × Nat))
    (h : decode_vec3_f32 root bin ai = Outcome.ok l) :
    ∃ a vi v,
      root.accessors[ai]? = some a ∧ a.bufferView = some vi ∧
      root.bufferViews[vi]? = some v ∧
      l = group3 (leWords (sliceAt bin (v.byteOffset.getD 0) v.byteLength)) ∧
      l.length = v.byteLength / 4 / 3 ∧
      ∀ a' : Accessor, a'.bufferView = a.bufferView → a'.accType = a.accType →
        a'.componentType = a.componentType →
        decode_vec3_f32 { root with accessors := root.accessors.set ai a' } bin ai =
          Outcome.ok l := by
  unfold decode_vec3_f32 at h
  split at h
  next => simp at h
  next a hacc =>
    split at h
    next => simp at h
    next hat =>
      split at h
      next => simp at h
      next hct =>
        split at h
        next => simp at h
        next vi hbv =>
          split at h
          next => simp at h
          next v hv =>
            split at h
            next => simp at h
            next hs =>
              split at h
              next => simp at h
              next b hb =>
                split at h
                next => simp at h
                next hu =>
                  split at h
                  next => simp at h
                  next hbound =>
                    rw [Outcome.ok.injEq] at h
                    refine ⟨a, vi, v, hacc, hbv, hv, h.symm, ?_, ?_⟩
                    · rw [← h]
                      rw [group3_length, leWords_length]
                      have hlen : (sliceAt bin (v.byteOffset.getD 0) v.byteLength).length =
                          v.byteLength := by
                        simp only [sliceAt, List.length_take, List.length_drop]
                        omega
                      rw [hlen]
                    · intro a' hbv' hat' hct'
                      have hlt : ai < root.accessors.length := by
                        by_contra hc
                        rw [List.getElem?_eq_none (by omega)] at hacc
                        simp at hacc
                      have hset : (root.accessors.set ai a')[ai]? = some a' := by
                        simp [List.getElem?_set_self', hlt]
                      push_neg at hat hct hs hu
                      simp [decode_vec3_f32, hset, hbv', hat', hct', hat, hct, hbv,
                        hv, hs, hb, hu, hbound, ← h]

/-- C4 witness: the amended statement at the concrete document `c4Doc`,
whose decode succeeds by evaluation. -/
theorem C4_decode_uses_view_only_witness :
    ∃ a vi v,
      c4Doc.accessors[0]? = some a ∧ a.bufferView = some vi ∧
      c4Doc.bufferViews[vi]? = some v ∧
      [(1, 2, 3), (4, 5, 6)] =
        group3 (leWords (sliceAt c4Bin (v.byteOffset.getD 0) v.byteLength)) ∧
      [(1, 2, 3), (4, 5, 6)].length = v.byteLength / 4 / 3 ∧
      ∀ a' : Accessor, a'.bufferView = a.bufferView → a'.accType = a.accType →
        a'.componentType = a.componentType →
        decode_vec3_f32 { c4Doc with accessors := c4Doc.accessors.set 0 a' } c4Bin 0 =
          Outcome.ok [(1, 2, 3), (4, 5, 6)] :=
  C4_decode_uses_view_only c4Doc c4Bin 0 [(1, 2, 3), (4, 5, 6)] (by decide)

/-- The blob the writer hands to the GLB container is always a multiple
of four bytes long: it is the result of the last `append_bytes` call. -/
theorem write_glb_bin_aligned (vertices indices normals : List (Nat × Nat × Nat))
    (material : Option (List Nat × List (Nat × Nat)))
    (translation : Option (Nat × Nat × Nat)) :
    (write_glb vertices indices normals material translation).2.length % 4 = 0 := by
  cases material with
  | none =>
      simp only [write_glb]
      exact append_bytes_aligned _ _
  | some m =>
      obtain ⟨png, uv⟩ := m
      simp only [write_glb]
      exact append_bytes_aligned _ _

/-- C5 counterexample: for the triangle-scenario blob (48 bytes) and a
JSON payload of 101 bytes, the header length field computed by write_glb
is align4(101) + 48 = 104 + 48 = 152, whereas the container invariant of the claim
demands 12 + (8 + json payload) + (8 + bin payload): 177 with the raw
JSON payload and 180 with the 4-aligned one.  The field the code writes
omits the 12-byte header and the two 8-byte chunk headers, whatever the
JSON length is. -/
theorem C5_counterexample :
    write_glb_header_length 101
        (write_glb triVertices triIndices [] none none).2.length = 152 ∧
    write_glb_header_length 101
        (write_glb triVertices triIndices [] none none).2.length ≠
      12 + (8 + 101) + (8 + (write_glb triVertices triIndices [] none none).2.length) ∧
    write_glb_header_length 101
        (write_glb triVertices triIndices [] none none).2.length ≠
      12 + (8 + align_to_multiple_of_four 101) +
        (8 + (write_glb triVertices triIndices [] none none).2.length) := by
  decide

/-- C5 amended: the BIN payload of every container the writer builds is a
multiple of four bytes long, and the header total-length field equals the
4-aligned JSON length plus the BIN length — falling short of the claimed
container-invariant value 12 + (8 + padded JSON) + (8 + BIN) by exactly
the 28 bytes of the GLB header and the two chunk headers, whenever the
sum fits in a u32.  (The JSON payload itself comes from the external
serializer and is stored unpadded; its 4-alignment is only accounted for
arithmetically in this field.) -/
theorem C5_header_length (vertices indices normals : List (Nat × Nat × Nat))
    (material : Option (List Nat × List (Nat × Nat)))
    (translation : Option (Nat × Nat × Nat)) (jsonLen : Nat)
    (hfit : align_to_multiple_of_four jsonLen +
        (write_glb vertices indices normals material translation).2.length < 4294967296) :
    (write_glb vertices indices normals material translation).2.length % 4 = 0 ∧
    write_glb_header_length jsonLen
        (write_glb vertices indices normals material translation).2.length + 28 =
      12 + (8 + align_to_multiple_of_four jsonLen) +
        (8 + (write_glb vertices indices normals material translation).2.length) := by
  refine ⟨write_glb_bin_aligned vertices indices normals material translation, ?_⟩
  simp only [write_glb_header_length, Nat.mod_eq_of_lt hfit]
  omega

/-- C5 witness: the amended statement at the triangle scenario with a
100-byte JSON payload. -/
theorem C5_header_length_witness :
    (write_glb triVertices triIndices [] none none).2.length % 4 = 0 ∧
    write_glb_header_length 100
        (write_glb triVertices triIndices [] none none).2.length + 28 =
      12 + (8 + align_to_multiple_of_four 100) +
        (8 + (write_glb triVertices triIndices [] none none).2.length) :=
  C5_header_length triVertices triIndices [] none none 100 (by decide)

theorem foldl_min_proj_le_init {α : Type} (f : α → ℚ) (l : List α) (a : ℚ) :
    l.foldl (fun m p => min m (f p)) a ≤ a := by
  induction l generalizing a with
  | nil => simp
  | cons x xs ih => exact le_trans (ih (min a (f x))) (min_le_left a (f x))

theorem foldl_min_proj_le_mem {α : Type} (f : α → ℚ) {l : List α} {x : α}
    (hx : x ∈ l) (a : ℚ) : l.foldl (fun m p => min m (f p)) a ≤ f x := by
  induction l generalizing a with
  | nil => cases hx
  | cons y ys ih =>
      rcases List.mem_cons.mp hx with rfl | h
      · exact le_trans (foldl_min_proj_le_init f ys (min a (f x))) (min_le_right a (f x))
      · exact ih h (min a (f y))

theorem le_foldl_max_proj_init {α : Type} (f : α → ℚ) (l : List α) (a : ℚ) :
    a ≤ l.foldl (fun m p => max m (f p)) a := by
  induction l generalizing a with
  | nil => simp
  | cons x xs ih => exact le_trans (le_max_left a (f x)) (ih (max a (f x)))

theorem le_foldl_max_proj_mem {α : Type} (f : α → ℚ) {l : List α} {x : α}
    (hx : x ∈ l) (a : ℚ) : f x ≤ l.foldl (fun m p => max m (f p)) a := by
  induction l generalizing a with
  | nil => cases hx
  | cons y ys ih =>
      rcases List.mem_cons.mp hx with rfl | h
      · exact le_trans (le_max_right a (f x)) (le_foldl_max_proj_init f ys (max a (f x)))
      · exact ih h (max a (f y))

/-- The fold in `bounding_coords3d` acts on each of its six accumulator
components independently. -/
theorem bounding_coords3d_eq (points : List (ℚ × ℚ × ℚ)) :
    bounding_coords3d points =
      ((points.foldl (fun m p => min m p.1) f32MAX,
        points.foldl (fun m p => min m p.2.1) f32MAX,
        points.foldl (fun m p => min m p.2.2) f32MAX),
       (points.foldl (fun m p => max m p.1) (-f32MAX),
        points.foldl (fun m p => max m p.2.1) (-f32MAX),
        points.foldl (fun m p => max m p.2.2) (-f32MAX))) := by
  suffices h : ∀ acc : (ℚ × ℚ × ℚ) × (ℚ × ℚ × ℚ),
      points.foldl
          (fun acc p =>
            ((min acc.1.1 p.1, min acc.1.2.1 p.2.1, min acc.1.2.2 p.2.2),
             (max acc.2.1 p.1, max acc.2.2.1 p.2.1, max acc.2.2.2 p.2.2)))
          acc =
        ((points.foldl (fun m p => min m p.1) acc.1.1,
          points.foldl (fun m p => min m p.2.1) acc.1.2.1,
          points.foldl (fun m p => min m p.2.2) acc.1.2.2),
         (points.foldl (fun m p => max m p.1) acc.2.1,
          points.foldl (fun m p => max m p.2.1) acc.2.2.1,
          points.foldl (fun m p => max m p.2.2) acc.2.2.2)) by
    exact h ((f32MAX, f32MAX, f32MAX), (-f32MAX, -f32MAX, -f32MAX))
  induction points with
  | nil => intro acc; simp
  | cons q qs ih =>
      intro acc
      simp only [List.foldl_cons]
      exact ih _

/-- C6: `bounding_coords3d` is a single linear scan computing the
component-wise minimum and maximum of its input: every input point is
bounded below by the returned minimum and above by the returned maximum,
component-wise; and on the three scenario points (0, 0.5, 0),
(-0.5, -0.5, 0), (0.5, -0.5, 0) it returns exactly
min = (-0.5, -0.5, 0), max = (0.5, 0.5, 0). -/
theorem C6_bounds (points : List (ℚ × ℚ × ℚ)) :
    bounding_coords3d [(0, 1 / 2, 0), (-(1 / 2), -(1 / 2), 0), (1 / 2, -(1 / 2), 0)] =
      ((-(1 / 2), -(1 / 2), 0), (1 / 2, 1 / 2, 0)) ∧
    ∀ p ∈ points,
      (bounding_coords3d points).1.1 ≤ p.1 ∧
      (bounding_coords3d points).1.2.1 ≤ p.2.1 ∧
      (bounding_coords3d points).1.2.2 ≤ p.2.2 ∧
      p.1 ≤ (bounding_coords3d points).2.1 ∧
      p.2.1 ≤ (bounding_coords3d points).2.2.1 ∧
      p.2.2 ≤ (bounding_coords3d points).2.2.2 := by
  constructor
  · simp only [bounding_coords3d, List.foldl_cons, List.foldl_nil, f32MAX]
    norm_num [min_def, max_def]
  · intro p hp
    rw [bounding_coords3d_eq]
    exact ⟨foldl_min_proj_le_mem _ hp _, foldl_min_proj_le_mem _ hp _,
      foldl_min_proj_le_mem _ hp _, le_foldl_max_proj_mem _ hp _,
      le_foldl_max_proj_mem _ hp _, le_foldl_max_proj_mem _ hp _⟩

/-- C6 witness: the component-wise bound evaluated at the first scenario
point. -/
theorem C6_bounds_witness :
    ((0, 1 / 2, 0) ∈
      ([(0, 1 / 2, 0), (-(1 / 2), -(1 / 2), 0), (1 / 2, -(1 / 2), 0)] :
        List (ℚ × ℚ × ℚ))) ∧
    (bounding_coords3d [(0, 1 / 2, 0), (-(1 / 2), -(1 / 2), 0), (1 / 2, -(1 / 2), 0)]).1.1 ≤
      (0 : ℚ) ∧
    (1 / 2 : ℚ) ≤
      (bounding_coords3d
        [(0, 1 / 2, 0), (-(1 / 2), -(1 / 2), 0), (1 / 2, -(1 / 2), 0)]).2.2.1 := by
  have h := (C6_bounds [(0, 1 / 2, 0), (-(1 / 2), -(1 / 2), 0), (1 / 2, -(1 / 2), 0)]).2
    (0, 1 / 2, 0) (List.mem_cons_self _ _)
  exact ⟨List.mem_cons_self _ _, h.1, h.2.2.2.2.1⟩

/-- C7: for every textured primitive the writer assembles, the single
material has PBR base-color factor (1,1,1,1), metallic factor 0.0,
roughness factor 0.9, and base-color texture pointing at the created
texture (index 0) with UV set 0; the created texture references sampler 0
and image 0 and carries a texture transform with offset (0,0), rotation
0, scale (0,0) and overriding UV-set index equal to the created UV
accessor index — 3, the fourth accessor, which indeed is the Vec2 UV
accessor. -/
theorem C7_material_assembly (vertices indices normals : List (Nat × Nat × Nat))
    (png : List Nat) (uv : List (Nat × Nat)) (translation : Option (Nat × Nat × Nat)) :
    (write_glb vertices indices normals (some (png, uv)) translation).1.materials =
      [⟨⟨(1, 1, 1, 1), 0, 9 / 10, some ⟨0, 0⟩⟩⟩] ∧
    (write_glb vertices indices normals (some (png, uv)) translation).1.textures =
      [⟨some 0, 0, ⟨(0, 0), 0, (0, 0), some 3⟩⟩] ∧
    ((write_glb vertices indices normals (some (png, uv)) translation).1.accessors[3]?).map
        Accessor.accType = some AccessorType.Vec2 := by
  refine ⟨?_, ?_, ?_⟩ <;> simp [write_glb]

/-- C9: the attribute map of the written primitive holds exactly the POSITION
and NORMAL semantics (accessors 0 and 1); TEXCOORD_0 is never a key —
even when a textured material was supplied, in which case a Vec2 UV
accessor was nevertheless registered in the document at index 3. -/
theorem C9_attributes_positions_normals_only
    (vertices indices normals : List (Nat × Nat × Nat))
    (material : Option (List Nat × List (Nat × Nat)))
    (translation : Option (Nat × Nat × Nat)) :
    ∃ prim : Primitive,
      (write_glb vertices indices normals material translation).1.meshes = [⟨[prim]⟩] ∧
      prim.attributes = [(Semantic.Positions, 0), (Semantic.Normals, 1)] ∧
      prim.attributes.lookup (Semantic.TexCoords 0) = none ∧
      (∀ png uv, material = some (png, uv) →
        ((write_glb vertices indices normals material translation).1.accessors[3]?).map
            Accessor.accType = some AccessorType.Vec2) := by
  obtain ⟨matIdx, hmesh, -⟩ := write_glb_meshes vertices indices normals material translation
  refine ⟨_, hmesh, rfl, by rfl, ?_⟩
  rintro png uv rfl
  simp [write_glb]

/-- C9 witness: a textured input, with the registered UV accessor. -/
theorem C9_attributes_witness :
    ∃ prim : Primitive,
      (write_glb triVertices triIndices [] (some ([9], [(0, 0)])) none).1.meshes =
        [⟨[prim]⟩] ∧
      prim.attributes = [(Semantic.Positions, 0), (Semantic.Normals, 1)] ∧
      prim.attributes.lookup (Semantic.TexCoords 0) = none ∧
      ((write_glb triVertices triIndices [] (some ([9], [(0, 0)])) none).1.accessors[3]?).map
          Accessor.accType = some AccessorType.Vec2 := by
  obtain ⟨prim, h1, h2, h3, h4⟩ :=
    C9_attributes_positions_normals_only triVertices triIndices [] (some ([9], [(0, 0)])) none
  exact ⟨prim, h1, h2, h3, h4 [9] [(0, 0)] rfl⟩

/-- C10: for every textured write, the UV accessor — index 3, Vec2/F32 —
records `count = vertices.length`, regardless of the length of the UV
array whose bytes back it (here `uv` is arbitrary and unrelated to
`vertices`). -/
theorem C10_uv_accessor_count (vertices indices normals : List (Nat × Nat × Nat))
    (png : List Nat) (uv : List (Nat × Nat)) (translation : Option (Nat × Nat × Nat)) :
    (write_glb vertices indices normals (some (png, uv)) translation).1.accessors[3]? =
      some ⟨some 4, 0, vertices.length, ComponentType.F32, AccessorType.Vec2, false⟩ := by
  simp [write_glb]

/-- C8 counterexample: decoding the UNSIGNED_SHORT/Scalar indices
accessor of `c8Doc` does not fail with a reported error result — the
`assert_eq!(ai.data_type(), DataType::U32)` at main.rs line 187 makes the
process panic instead, so no error value is ever returned. -/
theorem C8_counterexample :
    decode_indices_u32 c8Doc c8Bin 0 = Outcome.panicked ∧
    ¬ ∃ msg : String, decode_indices_u32 c8Doc c8Bin 0 = Outcome.err msg := by
  constructor
  · decide
  · rintro ⟨msg, hmsg⟩
    have h : decode_indices_u32 c8Doc c8Bin 0 = Outcome.panicked := by decide
    rw [h] at hmsg
    exact Outcome.noConfusion hmsg

/-- C8 amended: for every input whose indices accessor declares component
type UNSIGNED_SHORT with Scalar shape, the decode aborts with an
assertion failure (a panic), not a reported error result. -/
theorem C8_u16_panics (root : Root) (bin : List Nat) (ai : Nat) (a : Accessor)
    (ha : root.accessors[ai]? = some a) (hat : a.accType = AccessorType.Scalar)
    (hct : a.componentType = ComponentType.U16) :
    decode_indices_u32 root bin ai = Outcome.panicked := by
  simp [decode_indices_u32, ha, hat, hct]

/-- C8 witness: the amended statement evaluated on `c8Doc`. -/
theorem C8_u16_panics_witness :
    decode_indices_u32 c8Doc c8Bin 0 = Outcome.panicked :=
  C8_u16_panics c8Doc c8Bin 0 ⟨some 0, 0, 3, .U16, .Scalar, false⟩ (by decide) rfl rfl

end Vacation
